import Mathlib

/-!
Shallow embedding of `cloudwatch/vespa_cloudwatch_emitter.py`
(class `VespaCloudwatchEmitter`): the flatten / batch / run pipeline.

Modelling conventions:
* JSON objects with optional keys become structures with `Option` fields;
  JSON mappings whose insertion order is significant become lists of pairs.
* Numeric metric values are modelled as `ℚ` (the pipeline never computes
  with them, it only moves them, so any numeric carrier is faithful).
* Python exceptions become an explicit `Except` / `Option PyExc` plumbing:
  a function that can raise returns the exception instead, and `run`'s
  `try/except` clauses become a `match` on that exception.
* `log.*` calls whose text the run-level behaviour depends on are recorded
  in an explicit log list; the purely diagnostic log lines inside the
  flattener (`"Parsing metrics from node ..."` etc.) are elided, since the
  flattener's returned value does not depend on them.
-/

/-- Decidable equality for `Except`, so that concrete runs of the fallible
functions can be checked by `decide`. -/
instance {ε α : Type} [DecidableEq ε] [DecidableEq α] : DecidableEq (Except ε α) := fun x y =>
  match x, y with
  | .ok a, .ok b =>
    if h : a = b then .isTrue (by rw [h]) else .isFalse (by simp [h])
  | .error a, .error b =>
    if h : a = b then .isTrue (by rw [h]) else .isFalse (by simp [h])
  | .ok _, .error _ => .isFalse (fun h => Except.noConfusion h)
  | .error _, .ok _ => .isFalse (fun h => Except.noConfusion h)

namespace Vespa

/-- A CloudWatch dimension record `{'Name': dim, 'Value': dim_val}`. -/
structure Dimension where
  Name : String
  Value : String
  deriving Repr, DecidableEq

/-- One CloudWatch metric-data record
`{'MetricName': name, 'Value': value, 'Unit': 'None', 'Dimensions': dimensions}`. -/
structure MetricPoint where
  MetricName : String
  Value : ℚ
  Unit : String
  Dimensions : List Dimension
  deriving Repr, DecidableEq

/-- One element of a `metrics` json list: optional `values` mapping
(metric name to numeric value, insertion order kept) and optional
`dimensions` mapping (name to value, insertion order kept). -/
structure MetricsEntry where
  values : Option (List (String × ℚ))
  dimensions : Option (List (String × String))
  deriving Repr, DecidableEq

/-- A `node` element or one element of a `services` list: an object with an
optional `metrics` json list. -/
structure MetricsHolder where
  metrics : Option (List MetricsEntry)
  deriving Repr, DecidableEq

/-- One element of the top-level `nodes` list. -/
structure NodeEntry where
  hostname : Option String
  node : Option MetricsHolder
  services : Option (List MetricsHolder)
  deriving Repr, DecidableEq

/-- The fetched metrics document: a json object with an optional top-level
`nodes` list. -/
structure MetricsDocument where
  nodes : Option (List NodeEntry)
  deriving Repr, DecidableEq

/-- The Python exceptions the emitter distinguishes: `urllib3` timeout,
`urllib3` HTTP error, and everything else (`except Exception`). -/
inductive PyExc where
  | timeoutError (msg : String)
  | httpError (msg : String)
  | other (msg : String)
  deriving Repr, DecidableEq

/-- A recorded log call. `response` stands for `log.info(response)` where
`response` is the collaborator's acknowledgement object (not a plain
message string); `debugJson` stands for `log.debug("json: ...")`. -/
inductive LogLine where
  | info (msg : String)
  | warning (msg : String)
  | debugJson (doc : MetricsDocument)
  | response (ack : String)
  deriving Repr, DecidableEq

/-! ## Python `range` / slice semantics

`split_list` is the comprehension
`[lst[i:i + chunk_size] for i in range(0, len(lst), chunk_size)]`.
We embed `range(start, stop, step)` and the step-1 slice `lst[i:j]`
with Python's exact semantics (including `step = 0` raising `ValueError`,
negative steps, and slice-index clamping). -/

/-- Number of elements of Python `range(start, stop, step)` for `step ≠ 0`:
`max 0 ⌈(stop - start) / step⌉`, computed with Euclidean division. -/
def pyRangeLen (start stop step : Int) : Nat :=
  if 0 < step then ((stop - start + step - 1).ediv step).toNat
  else ((stop - start).ediv step).toNat

/-- Python `range(start, stop, step)`; `step = 0` raises
`ValueError: range() arg 3 must not be zero`. -/
def pyRange (start stop step : Int) : Except String (List Int) :=
  if step = 0 then .error "range() arg 3 must not be zero"
  else .ok ((List.range (pyRangeLen start stop step)).map fun (k : Nat) => start + (k : Int) * step)

/-- Clamp one Python slice index to `[0, len]`: a negative index counts from
the end (clamped below at 0), a nonnegative index is clamped above at `len`. -/
def pySliceIdx (len : Nat) (i : Int) : Nat :=
  if i < 0 then ((len : Int) + i).toNat else min i.toNat len

/-- Python step-1 slice `lst[i:j]`. -/
def pySlice (lst : List α) (i j : Int) : List α :=
  (lst.take (pySliceIdx lst.length j)).drop (pySliceIdx lst.length i)

/-- `split_list(self, lst, chunk_size)`:
`[lst[i:i + chunk_size] for i in range(0, len(lst), chunk_size)]`.
The `Except` layer carries the `ValueError` that `range` raises when
`chunk_size = 0`. -/
def split_list (lst : List α) (chunk_size : Int) : Except String (List (List α)) :=
  (pyRange 0 lst.length chunk_size).map fun idxs =>
    idxs.map fun i => pySlice lst i (i + chunk_size)

/-! ## The flattener -/

/-- `_get_dimensions(self, metrics)`: build the dimension records from the
optional `dimensions` mapping, in insertion order; absence yields `[]`. -/
def get_dimensions (metrics : MetricsEntry) : List Dimension :=
  match metrics.dimensions with
  | none => []
  | some dimensions_json => dimensions_json.map fun dv => ⟨dv.1, dv.2⟩

/-- `_get_metrics_with_dimensions(self, metrics_elem)`: one metric-data
record per `(name, value)` pair of the `values` mapping, all sharing the
dimensions computed once from the entry; no `values` key yields `[]`. -/
def get_metrics_with_dimensions (metrics_elem : MetricsEntry) : List MetricPoint :=
  match metrics_elem.values with
  | none => []
  | some vs => vs.map fun nv => ⟨nv.1, nv.2, "None", get_dimensions metrics_elem⟩

/-- `_metric_data_for_service_or_node(self, service_or_node)`: concatenate
the records of every element of the optional `metrics` list, in order. -/
def metric_data_for_service_or_node (service_or_node : MetricsHolder) : List MetricPoint :=
  match service_or_node.metrics with
  | none => []
  | some ms => ms.flatMap get_metrics_with_dimensions

/-- `_metric_data_for_node_node(self, nodes_elem)`: the records of the
optional `node` holder (absence is expected and yields `[]`). -/
def metric_data_for_node_node (nodes_elem : NodeEntry) : List MetricPoint :=
  match nodes_elem.node with
  | none => []
  | some h => metric_data_for_service_or_node h

/-- `_metric_data_for_node_services(self, nodes_elem)`: concatenate the
records of every holder of the optional `services` list, in order
(absence is logged as a warning and yields `[]`). -/
def metric_data_for_node_services (nodes_elem : NodeEntry) : List MetricPoint :=
  match nodes_elem.services with
  | none => []
  | some svcs => svcs.flatMap metric_data_for_service_or_node

/-- `all_metric_data_for_response(self, response_json)`: for each element of
`response_json['nodes']` in order, the `node` holder's records then the
`services` records. The subscript `response_json['nodes']` raises
`KeyError` when the key is absent, carried here as `.error`. -/
def all_metric_data_for_response (response_json : MetricsDocument) :
    Except PyExc (List MetricPoint) :=
  match response_json.nodes with
  | none => .error (.other "KeyError: nodes")
  | some nodes => .ok (nodes.flatMap fun nodes_elem =>
      metric_data_for_node_node nodes_elem ++ metric_data_for_node_services nodes_elem)

/-! ## The orchestrator -/

/-- The per-instance configuration `run` reads: `VESPA_ENDPOINT`,
`CLOUDWATCH_NAMESPACE` and `CHUNK_SIZE` (default 20). -/
structure EmitterConfig where
  vespa_endpoint : String
  cloudwatch_namespace : String
  chunk_size : Int
  deriving Repr, DecidableEq

/-- Outcome of `_emit_metric_data`: the counter value, the batches passed to
`put_metric_data` in call order, the log lines, and the exception that
escaped the loop, if any. -/
structure EmitOutcome where
  chunks_sent : Nat
  attempted : List (List MetricPoint)
  logs : List LogLine
  exc : Option PyExc
  deriving Repr, DecidableEq

/-- The `for chunk in metric_data_chunks` loop of `_emit_metric_data`.
`put i` is the outcome of the `i`-th `put_metric_data` call of this run
(the acknowledgement object, or the exception it raises); `sent` is the
current `self.chunks_sent`, which is also the index of the next call. -/
def emitChunks (put : Nat → Except PyExc String) :
    List (List MetricPoint) → Nat → EmitOutcome
  | [], sent => ⟨sent, [], [], none⟩
  | c :: cs, sent =>
    let lg := LogLine.info ("Emitting chunk with " ++ toString c.length ++ " metrics")
    match put sent with
    | .error e => ⟨sent, [c], [lg], some e⟩
    | .ok resp =>
      let rest := emitChunks put cs (sent + 1)
      ⟨rest.chunks_sent, c :: rest.attempted,
        lg :: LogLine.response resp :: rest.logs, rest.exc⟩

/-- `_emit_metric_data(self, metric_data)`: log the header, split into
chunks of max `CHUNK_SIZE`, and emit each chunk, incrementing
`self.chunks_sent` after each successful call. A `ValueError` from
`split_list` (chunk size 0) escapes as an exception. -/
def emit_metric_data (cfg : EmitterConfig) (put : Nat → Except PyExc String)
    (metric_data : List MetricPoint) : EmitOutcome :=
  let hdr := LogLine.info ("Emitting " ++ toString metric_data.length ++
    " metrics in chunks of max " ++ toString cfg.chunk_size)
  match split_list metric_data cfg.chunk_size with
  | .error msg => ⟨0, [], [hdr], some (.other msg)⟩
  | .ok chunks =>
    let o := emitChunks put chunks 0
    ⟨o.chunks_sent, o.attempted, hdr :: o.logs, o.exc⟩

/-- What `run` observes of one invocation: the final `self.chunks_sent`, the
batches passed to `put_metric_data` in call order, and the log lines. -/
structure RunResult where
  chunks_sent : Nat
  attempted : List (List MetricPoint)
  logs : List LogLine
  deriving Repr, DecidableEq

/-- The message each `except` clause of `run` logs, in clause order:
`TimeoutError`, then `HTTPError`, then `Exception`. -/
def excHandlerText : PyExc → String
  | .timeoutError m => "Timed out connecting to Vespa's metrics api: " ++ m
  | .httpError m => "Could not connect to Vespa's metrics api: " ++ m
  | .other m => "Unexpected error: " ++ m

/-- The terminal summary line of a normal completion. -/
def finishedLine (n : Nat) : LogLine :=
  .info ("Finished emitting " ++ toString n ++ " metrics chunks")

/-- `run(self)`. `chunks_sent₀` is the value of `self.chunks_sent` left over
from an earlier invocation — the first statement overwrites it with 0.
`fetch` is the outcome of `self._get_metrics_json(vespa_url)` (the parsed
document, or the exception the transport raises); `put` is the
`put_metric_data` collaborator. Every exception raised inside the `try`
body is routed through the `except` clauses, which log a warning and
return normally. -/
def run (cfg : EmitterConfig) (fetch : Except PyExc MetricsDocument)
    (put : Nat → Except PyExc String) (_chunks_sent₀ : Nat) : RunResult :=
  let l0 := LogLine.info ("Retrieving Vespa metrics from " ++
    cfg.vespa_endpoint ++ "metrics/v2/values")
  match fetch with
  | .error e => ⟨0, [], [l0, .warning (excHandlerText e)]⟩
  | .ok metrics_json =>
    match metrics_json.nodes with
    | none => ⟨0, [], [l0, .debugJson metrics_json, .warning "No 'nodes' in metrics json"]⟩
    | some _ =>
      match all_metric_data_for_response metrics_json with
      | .error e =>
        ⟨0, [], [l0, .debugJson metrics_json, .warning (excHandlerText e)]⟩
      | .ok metric_data =>
        let o := emit_metric_data cfg put metric_data
        match o.exc with
        | some e =>
          ⟨o.chunks_sent, o.attempted,
            l0 :: .debugJson metrics_json :: (o.logs ++ [.warning (excHandlerText e)])⟩
        | none =>
          ⟨o.chunks_sent, o.attempted,
            l0 :: .debugJson metrics_json :: (o.logs ++ [finishedLine o.chunks_sent])⟩

/-! ## The fixture document -/

/-- Modelled from the spec: the test fixture `metrics.json` is not part of
the sources available here, so the two-node fixture document is built from
the spec's description. Node A has a `node`-level metric `cpu.util=11.1`
(dimensions include `host=host1`) and a service metric
`net.in.bytes=12345`; node B has a service metric
`http.status.2xx.rate=4.95` (6 dimensions, last one `httpMethod=GET`) and a
`node`-level metric `mem.util=62` (dimensions include `host=host2`);
flattening the document yields exactly 8 metric points. -/
def fixtureDoc : MetricsDocument :=
  ⟨some
    [ ⟨some "host1",
       some ⟨some [⟨some [("cpu.util", 11.1), ("cpu.sys.util", 5.2)],
                    some [("applicationId", "my-app"), ("clusterId", "admin"),
                          ("host", "host1"), ("zone", "prod.us-east-1")]⟩]⟩,
       some [⟨some [⟨some [("net.in.bytes", 12345), ("net.out.bytes", 54321)],
                     some [("applicationId", "my-app"), ("clusterId", "default"),
                           ("host", "host1"), ("serviceId", "container")]⟩]⟩]⟩,
      ⟨some "host2",
       some ⟨some [⟨some [("mem.util", 62), ("mem.total.util", 38)],
                    some [("applicationId", "my-app"), ("clusterId", "admin"),
                          ("host", "host2"), ("zone", "prod.us-east-1")]⟩]⟩,
       some [⟨some [⟨some [("http.status.2xx.rate", 4.95), ("http.status.4xx.rate", 0.05)],
                     some [("applicationId", "my-app"), ("clusterId", "default"),
                           ("host", "host2"), ("serviceId", "container"),
                           ("api", "state"), ("httpMethod", "GET")]⟩]⟩]⟩]⟩

/-- The 8 metric points that flattening `fixtureDoc` must produce, in
document order: node A's `node` metrics, node A's service metrics, node
B's `node` metrics, node B's service metrics, each in `values` order, with
dimension order preserved. -/
def fixturePoints : List MetricPoint :=
  [ ⟨"cpu.util", 11.1, "None",
      [⟨"applicationId", "my-app"⟩, ⟨"clusterId", "admin"⟩,
       ⟨"host", "host1"⟩, ⟨"zone", "prod.us-east-1"⟩]⟩
  , ⟨"cpu.sys.util", 5.2, "None",
      [⟨"applicationId", "my-app"⟩, ⟨"clusterId", "admin"⟩,
       ⟨"host", "host1"⟩, ⟨"zone", "prod.us-east-1"⟩]⟩
  , ⟨"net.in.bytes", 12345, "None",
      [⟨"applicationId", "my-app"⟩, ⟨"clusterId", "default"⟩,
       ⟨"host", "host1"⟩, ⟨"serviceId", "container"⟩]⟩
  , ⟨"net.out.bytes", 54321, "None",
      [⟨"applicationId", "my-app"⟩, ⟨"clusterId", "default"⟩,
       ⟨"host", "host1"⟩, ⟨"serviceId", "container"⟩]⟩
  , ⟨"mem.util", 62, "None",
      [⟨"applicationId", "my-app"⟩, ⟨"clusterId", "admin"⟩,
       ⟨"host", "host2"⟩, ⟨"zone", "prod.us-east-1"⟩]⟩
  , ⟨"mem.total.util", 38, "None",
      [⟨"applicationId", "my-app"⟩, ⟨"clusterId", "admin"⟩,
       ⟨"host", "host2"⟩, ⟨"zone", "prod.us-east-1"⟩]⟩
  , ⟨"http.status.2xx.rate", 4.95, "None",
      [⟨"applicationId", "my-app"⟩, ⟨"clusterId", "default"⟩,
       ⟨"host", "host2"⟩, ⟨"serviceId", "container"⟩,
       ⟨"api", "state"⟩, ⟨"httpMethod", "GET"⟩]⟩
  , ⟨"http.status.4xx.rate", 0.05, "None",
      [⟨"applicationId", "my-app"⟩, ⟨"clusterId", "default"⟩,
       ⟨"host", "host2"⟩, ⟨"serviceId", "container"⟩,
       ⟨"api", "state"⟩, ⟨"httpMethod", "GET"⟩]⟩ ]

/-! ## A structural description of chunking, used to reason about
`split_list` -/

/-- Structural-recursion description of chunking: repeatedly take `n`
elements. For `1 ≤ n` it coincides with `split_list` (proved below). -/
def chunksRec (n : Nat) : List α → List (List α)
  | [] => []
  | a :: l => (a :: l).take n :: chunksRec n (l.drop (n - 1))
termination_by l => l.length
decreasing_by
  simp only [List.length_drop, List.length_cons]
  omega

/-- Recognizer for the terminal summary line: an info line whose text
starts with `"Finished emitting "`. -/
def isFinishedLine : LogLine → Bool
  | .info m => "Finished emitting ".data.isPrefixOf m.data
  | _ => false

/-- A concrete configuration, used for concrete runs. -/
def cfgEx : EmitterConfig := ⟨"https://vespa.example/", "Vespa", 3⟩

/-- A `put_metric_data` collaborator that always succeeds. -/
def putOk : Nat → Except PyExc String := fun i => .ok ("ack" ++ toString i)

/-- A `put_metric_data` collaborator that raises on the call with index `k`
(0-based) and succeeds on every other call. -/
def putFailAt (k : Nat) : Nat → Except PyExc String :=
  fun i => if i = k then .error (.other "AccessDenied") else .ok ("ack" ++ toString i)

/-! ## Lemmas about `split_list` -/

theorem pySliceIdx_natCast (len c : Nat) : pySliceIdx len (c : Int) = min c len := by
  unfold pySliceIdx
  rw [if_neg (by omega)]
  simp

theorem pySlice_natCast (l : List α) (a b : Nat) :
    pySlice l (a : Int) ((a : Int) + (b : Int)) = (l.drop a).take b := by
  have hcast : ((a : Int) + (b : Int)) = ((a + b : Nat) : Int) := by omega
  unfold pySlice
  rw [hcast, pySliceIdx_natCast, pySliceIdx_natCast]
  have htake : l.take (min (a + b) l.length) = l.take (a + b) := by
    rw [← List.take_take, List.take_length]
  rw [htake]
  rcases Nat.le_total a l.length with h | h
  · rw [min_eq_left h, List.drop_take]
    congr 1
    omega
  · rw [min_eq_right h]
    rw [List.drop_eq_nil_of_le (le_trans (by simp) h),
      List.drop_eq_nil_of_le (by simp [List.length_take])]
    simp

theorem ediv_toNat (p q : Nat) : (((p : Int)).ediv (q : Int)).toNat = p / q := by
  rw [show ((p : Int)).ediv (q : Int) = ((p / q : Nat) : Int) from rfl]
  exact Int.toNat_ofNat _

theorem pyRange_natCast_pos (len m : Nat) (hm : 1 ≤ m) :
    pyRange 0 (len : Int) (m : Int) =
      .ok ((List.range ((len + m - 1) / m)).map fun k => ((k * m : Nat) : Int)) := by
  unfold pyRange pyRangeLen
  rw [if_neg (by omega), if_pos (by omega)]
  have hlen : ((len : Int) - 0 + (m : Int) - 1) = ((len + m - 1 : Nat) : Int) := by omega
  rw [hlen, ediv_toNat]
  have hfun : (fun k : Nat => (0 : Int) + (k : Int) * (m : Int)) =
      fun k : Nat => ((k * m : Nat) : Int) := by
    funext k
    push_cast
    ring
  rw [hfun]

theorem split_list_natCast_pos (l : List α) (m : Nat) (hm : 1 ≤ m) :
    split_list l (m : Int) =
      .ok ((List.range ((l.length + m - 1) / m)).map fun k => (l.drop (k * m)).take m) := by
  unfold split_list
  rw [pyRange_natCast_pos l.length m hm]
  simp only [Except.map, List.map_map]
  have hfun : ((fun i => pySlice l i (i + (m : Int))) ∘ fun k : Nat => ((k * m : Nat) : Int)) =
      fun k : Nat => (l.drop (k * m)).take m := by
    funext k
    exact pySlice_natCast l (k * m) m
  rw [hfun]

theorem ceil_div_succ (len m : Nat) (hm : 1 ≤ m) (hlen : 1 ≤ len) :
    (len + m - 1) / m = ((len - m) + m - 1) / m + 1 := by
  rcases Nat.le_total len m with h | h
  · have h1 : (len + m - 1) / m = 1 := Nat.div_eq_of_lt_le (by omega) (by omega)
    have h2 : len - m = 0 := by omega
    rw [h1, h2, Nat.div_eq_of_lt (by omega : 0 + m - 1 < m)]
  · have h3 : len + m - 1 = ((len - m) + m - 1) + 1 * m := by omega
    rw [h3, Nat.add_mul_div_right _ _ (by omega : 0 < m)]

theorem chunksRec_cons (m : Nat) (hm : 1 ≤ m) (a : α) (l : List α) :
    chunksRec m (a :: l) = (a :: l).take m :: chunksRec m ((a :: l).drop m) := by
  rw [chunksRec]
  congr 2
  cases m with
  | zero => omega
  | succ m' => simp

theorem chunksRec_closed (m : Nat) (hm : 1 ≤ m) (l : List α) :
    chunksRec m l =
      (List.range ((l.length + m - 1) / m)).map fun k => (l.drop (k * m)).take m := by
  have key : ∀ (fuel : Nat) (l : List α), l.length ≤ fuel →
      chunksRec m l =
        (List.range ((l.length + m - 1) / m)).map fun k => (l.drop (k * m)).take m := by
    intro fuel
    induction fuel with
    | zero =>
      intro l hl
      have : l = [] := List.length_eq_zero.mp (by omega)
      subst this
      have h0 : (List.length ([] : List α) + m - 1) / m = 0 :=
        Nat.div_eq_of_lt (by simp; omega)
      rw [h0]
      simp [chunksRec]
    | succ fuel ih =>
      intro l hl
      match l with
      | [] =>
        have h0 : (List.length ([] : List α) + m - 1) / m = 0 :=
          Nat.div_eq_of_lt (by simp; omega)
        rw [h0]
        simp [chunksRec]
      | a :: l' =>
        have hdl : ((a :: l').drop m).length = (a :: l').length - m :=
          List.length_drop _ _
        have hfuel : ((a :: l').drop m).length ≤ fuel := by
          rw [hdl]
          simp only [List.length_cons] at hl ⊢
          omega
        rw [chunksRec_cons m hm a l', ih ((a :: l').drop m) hfuel, hdl,
          ceil_div_succ (a :: l').length m hm (by simp),
          List.range_succ_eq_map, List.map_cons, List.map_map]
        congr 1
        · simp
        · congr 1
          funext k
          show ((a :: l').drop m |>.drop (k * m)).take m =
            ((a :: l').drop (Nat.succ k * m)).take m
          rw [List.drop_drop, Nat.succ_mul, Nat.add_comm]
  exact key l.length l (le_refl _)

theorem split_list_eq_chunksRec (l : List α) (m : Nat) (hm : 1 ≤ m) :
    split_list l (m : Int) = .ok (chunksRec m l) := by
  rw [split_list_natCast_pos l m hm, chunksRec_closed m hm l]

theorem chunksRec_flatten (m : Nat) (hm : 1 ≤ m) (l : List α) :
    (chunksRec m l).flatten = l := by
  have key : ∀ (fuel : Nat) (l : List α), l.length ≤ fuel → (chunksRec m l).flatten = l := by
    intro fuel
    induction fuel with
    | zero =>
      intro l hl
      have : l = [] := List.length_eq_zero.mp (by omega)
      subst this
      simp [chunksRec]
    | succ fuel ih =>
      intro l hl
      match l with
      | [] => simp [chunksRec]
      | a :: l' =>
        have hfuel : ((a :: l').drop m).length ≤ fuel := by
          rw [List.length_drop]
          simp only [List.length_cons] at hl ⊢
          omega
        rw [chunksRec_cons m hm a l', List.flatten_cons,
          ih ((a :: l').drop m) hfuel, List.take_append_drop]
  exact key l.length l (le_refl _)

theorem chunksRec_mem_bounds (m : Nat) (hm : 1 ≤ m) (l : List α) :
    ∀ c ∈ chunksRec m l, c ≠ [] ∧ c.length ≤ m := by
  have key : ∀ (fuel : Nat) (l : List α), l.length ≤ fuel →
      ∀ c ∈ chunksRec m l, c ≠ [] ∧ c.length ≤ m := by
    intro fuel
    induction fuel with
    | zero =>
      intro l hl c hc
      have : l = [] := List.length_eq_zero.mp (by omega)
      subst this
      simp [chunksRec] at hc
    | succ fuel ih =>
      intro l hl c hc
      match l with
      | [] => simp [chunksRec] at hc
      | a :: l' =>
        rw [chunksRec_cons m hm a l'] at hc
        rcases List.mem_cons.mp hc with h | h
        · subst h
          refine ⟨?_, by simp [List.length_take]⟩
          cases m with
          | zero => omega
          | succ m' => simp
        · have hfuel : ((a :: l').drop m).length ≤ fuel := by
            rw [List.length_drop]
            simp only [List.length_cons] at hl ⊢
            omega
          exact ih ((a :: l').drop m) hfuel c h
  exact key l.length l (le_refl _)

theorem chunksRec_eq_nil_iff (m : Nat) (l : List α) :
    chunksRec m l = [] ↔ l = [] := by
  cases l with
  | nil => simp [chunksRec]
  | cons a l' => simp [chunksRec]

theorem chunksRec_dropLast_length (m : Nat) (hm : 1 ≤ m) (l : List α) :
    ∀ c ∈ (chunksRec m l).dropLast, c.length = m := by
  have key : ∀ (fuel : Nat) (l : List α), l.length ≤ fuel →
      ∀ c ∈ (chunksRec m l).dropLast, c.length = m := by
    intro fuel
    induction fuel with
    | zero =>
      intro l hl c hc
      have : l = [] := List.length_eq_zero.mp (by omega)
      subst this
      simp [chunksRec] at hc
    | succ fuel ih =>
      intro l hl c hc
      match l with
      | [] => simp [chunksRec] at hc
      | a :: l' =>
        rw [chunksRec_cons m hm a l'] at hc
        rcases hrest : chunksRec m ((a :: l').drop m) with _ | ⟨r, rs⟩
        · rw [hrest] at hc
          simp at hc
        · rw [hrest, List.dropLast_cons₂] at hc
          rcases List.mem_cons.mp hc with h | h
          · subst h
            have hne : (a :: l').drop m ≠ [] := by
              intro hnil
              rw [hnil] at hrest
              simp [chunksRec] at hrest
            have hlen : m ≤ (a :: l').length := by
              by_contra hcon
              exact hne (List.drop_eq_nil_of_le (by omega))
            simp only [List.length_take, List.length_cons] at hlen ⊢
            omega
          · rw [← hrest] at h
            have hfuel : ((a :: l').drop m).length ≤ fuel := by
              rw [List.length_drop]
              simp only [List.length_cons] at hl ⊢
              omega
            exact ih ((a :: l').drop m) hfuel c h
  exact key l.length l (le_refl _)

theorem split_list_nil {α : Type} (c : Int) :
    split_list ([] : List α) c =
      if c = 0 then .error "range() arg 3 must not be zero" else .ok [] := by
  unfold split_list pyRange pyRangeLen
  simp only [List.length_nil, Nat.cast_zero]
  by_cases hc : c = 0
  · simp [hc, Except.map]
  · rw [if_neg hc, if_neg hc]
    by_cases hpos : 0 < c
    · rw [if_pos hpos]
      have h0 : ((0 : Int) - 0 + c - 1).ediv c = 0 :=
        Int.ediv_eq_zero_of_lt (by omega) (by omega)
      rw [h0]
      simp [Except.map]
    · rw [if_neg hpos]
      have h0 : ((0 : Int) - 0).ediv c = 0 := by
        rw [show ((0 : Int) - 0) = 0 by omega]
        exact Int.zero_ediv c
      rw [h0]
      simp [Except.map]

theorem split_list_neg {α : Type} (lst : List α) (c : Int) (hc : c < 0) :
    split_list lst c = .ok [] := by
  unfold split_list pyRange pyRangeLen
  rw [if_neg (by omega), if_neg (by omega)]
  have h0 : ((lst.length : Int) - 0).ediv c ≤ 0 := by
    rw [show ((lst.length : Int) - 0) = (lst.length : Int) by omega]
    exact Int.ediv_nonpos (by omega) (by omega)
  rw [Int.toNat_of_nonpos h0]
  simp [Except.map]

theorem pySlice_decomp (l : List α) (i j : Int) :
    ∃ pre post, pre ++ pySlice l i j ++ post = l := by
  refine ⟨(l.take (pySliceIdx l.length j)).take (pySliceIdx l.length i),
    l.drop (pySliceIdx l.length j), ?_⟩
  unfold pySlice
  rw [List.take_append_drop, List.take_append_drop]

theorem emitChunks_all_ok (put : Nat → Except PyExc String)
    (hok : ∀ i, ∃ r, put i = .ok r) :
    ∀ (chunks : List (List MetricPoint)) (sent : Nat),
      (emitChunks put chunks sent).chunks_sent = sent + chunks.length ∧
      (emitChunks put chunks sent).attempted = chunks ∧
      (emitChunks put chunks sent).exc = none := by
  intro chunks
  induction chunks with
  | nil => intro sent; simp [emitChunks]
  | cons c cs ih =>
    intro sent
    obtain ⟨r, hr⟩ := hok sent
    have ihs := ih (sent + 1)
    refine ⟨?_, ?_, ?_⟩ <;> simp [emitChunks, hr, ihs.1, ihs.2.1, ihs.2.2]
    omega

theorem emitChunks_fail (put : Nat → Except PyExc String) (e : PyExc) :
    ∀ (chunks : List (List MetricPoint)) (sent k : Nat),
      k < chunks.length →
      (∀ i, i < k → ∃ r, put (sent + i) = .ok r) →
      put (sent + k) = .error e →
      (emitChunks put chunks sent).chunks_sent = sent + k ∧
      (emitChunks put chunks sent).attempted = chunks.take (k + 1) ∧
      (emitChunks put chunks sent).exc = some e := by
  intro chunks
  induction chunks with
  | nil => intro sent k hk; simp at hk
  | cons c cs ih =>
    intro sent k hk hok hfail
    cases k with
    | zero =>
      have hp : put sent = .error e := by simpa using hfail
      simp [emitChunks, hp]
    | succ k' =>
      obtain ⟨r, hr0⟩ := hok 0 (by omega)
      have hr : put sent = .ok r := by simpa using hr0
      have hok' : ∀ i, i < k' → ∃ r, put (sent + 1 + i) = .ok r := by
        intro i hi
        obtain ⟨r', hr'⟩ := hok (i + 1) (by omega)
        exact ⟨r', by rw [show sent + 1 + i = sent + (i + 1) by omega]; exact hr'⟩
      have hfail' : put (sent + 1 + k') = .error e := by
        rw [show sent + 1 + k' = sent + (k' + 1) by omega]
        exact hfail
      have ihs := ih (sent + 1) k' (by simp at hk; omega) hok' hfail'
      refine ⟨?_, ?_, ?_⟩ <;>
        simp [emitChunks, hr, ihs.1, ihs.2.1, ihs.2.2, List.take_succ_cons]
      omega

theorem emitChunks_logs_shape (put : Nat → Except PyExc String) :
    ∀ (chunks : List (List MetricPoint)) (sent : Nat),
      ∀ l ∈ (emitChunks put chunks sent).logs,
        (∃ s, l = .info ("Emitting " ++ s)) ∨ ∃ r, l = .response r := by
  have hchunk : ∀ c : List MetricPoint,
      LogLine.info ("Emitting chunk with " ++ toString c.length ++ " metrics") =
        .info ("Emitting " ++ ("chunk with " ++ (toString c.length ++ " metrics"))) := by
    intro c
    rw [show ("Emitting chunk with " : String) = "Emitting " ++ "chunk with " from rfl,
      String.append_assoc, String.append_assoc]
  intro chunks
  induction chunks with
  | nil => intro sent l hl; simp [emitChunks] at hl
  | cons c cs ih =>
    intro sent l hl
    rcases hp : put sent with e | r <;> rw [emitChunks, hp] at hl <;> simp at hl
    · left
      exact ⟨"chunk with " ++ (toString c.length ++ " metrics"), by rw [hl]; exact hchunk c⟩
    · rcases hl with hl | hl | hl
      · exact .inl ⟨"chunk with " ++ (toString c.length ++ " metrics"),
          by rw [hl]; exact hchunk c⟩
      · exact .inr ⟨r, hl⟩
      · exact ih (sent + 1) l hl

theorem emit_metric_data_split_ok (cfg : EmitterConfig) (put : Nat → Except PyExc String)
    (pts : List MetricPoint) (chunks : List (List MetricPoint))
    (hsplit : split_list pts cfg.chunk_size = .ok chunks) :
    emit_metric_data cfg put pts =
      ⟨(emitChunks put chunks 0).chunks_sent, (emitChunks put chunks 0).attempted,
        .info ("Emitting " ++ toString pts.length ++ " metrics in chunks of max " ++
          toString cfg.chunk_size) :: (emitChunks put chunks 0).logs,
        (emitChunks put chunks 0).exc⟩ := by
  unfold emit_metric_data
  rw [hsplit]

theorem run_fetch_error (cfg : EmitterConfig) (put : Nat → Except PyExc String)
    (s₀ : Nat) (e : PyExc) :
    run cfg (.error e) put s₀ =
      ⟨0, [], [.info ("Retrieving Vespa metrics from " ++ cfg.vespa_endpoint ++
        "metrics/v2/values"), .warning (excHandlerText e)]⟩ := rfl

theorem run_no_nodes (cfg : EmitterConfig) (doc : MetricsDocument)
    (put : Nat → Except PyExc String) (s₀ : Nat) (hnodes : doc.nodes = none) :
    run cfg (.ok doc) put s₀ =
      ⟨0, [], [.info ("Retrieving Vespa metrics from " ++ cfg.vespa_endpoint ++
        "metrics/v2/values"), .debugJson doc, .warning "No 'nodes' in metrics json"]⟩ := by
  simp only [run, hnodes]

theorem run_emit_exc (cfg : EmitterConfig) (doc : MetricsDocument) (nodes : List NodeEntry)
    (put : Nat → Except PyExc String) (s₀ : Nat) (pts : List MetricPoint) (e : PyExc)
    (hnodes : doc.nodes = some nodes)
    (hflat : all_metric_data_for_response doc = .ok pts)
    (hexc : (emit_metric_data cfg put pts).exc = some e) :
    run cfg (.ok doc) put s₀ =
      ⟨(emit_metric_data cfg put pts).chunks_sent, (emit_metric_data cfg put pts).attempted,
        .info ("Retrieving Vespa metrics from " ++ cfg.vespa_endpoint ++ "metrics/v2/values") ::
          .debugJson doc ::
          ((emit_metric_data cfg put pts).logs ++ [.warning (excHandlerText e)])⟩ := by
  simp only [run, hnodes, hflat, hexc]

theorem run_emit_none (cfg : EmitterConfig) (doc : MetricsDocument) (nodes : List NodeEntry)
    (put : Nat → Except PyExc String) (s₀ : Nat) (pts : List MetricPoint)
    (hnodes : doc.nodes = some nodes)
    (hflat : all_metric_data_for_response doc = .ok pts)
    (hexc : (emit_metric_data cfg put pts).exc = none) :
    run cfg (.ok doc) put s₀ =
      ⟨(emit_metric_data cfg put pts).chunks_sent, (emit_metric_data cfg put pts).attempted,
        .info ("Retrieving Vespa metrics from " ++ cfg.vespa_endpoint ++ "metrics/v2/values") ::
          .debugJson doc ::
          ((emit_metric_data cfg put pts).logs ++
            [finishedLine (emit_metric_data cfg put pts).chunks_sent])⟩ := by
  simp only [run, hnodes, hflat, hexc]

theorem isFinishedLine_info_false (m : String) (c : Char) (hc : m.data.head? = some c)
    (hne : (c == 'F') = false) : isFinishedLine (.info m) = false := by
  show "Finished emitting ".data.isPrefixOf m.data = false
  rcases hd : m.data with _ | ⟨c', cs⟩
  · simp [List.isPrefixOf]
  · rw [hd] at hc
    simp at hc
    subst hc
    have hne' : ('F' == c') = false := by
      rw [beq_eq_false_iff_ne] at hne ⊢
      exact fun h => hne h.symm
    simp [List.isPrefixOf, hne']

theorem isFinishedLine_finishedLine (n : Nat) : isFinishedLine (finishedLine n) = true := by
  show "Finished emitting ".data.isPrefixOf
    (("Finished emitting " ++ toString n ++ " metrics chunks").data) = true
  rw [String.data_append, String.data_append, List.append_assoc]
  exact List.isPrefixOf_iff_prefix.mpr (List.prefix_append _ _)

theorem isFinishedLine_retrieving (x y : String) :
    isFinishedLine (.info ("Retrieving Vespa metrics from " ++ x ++ y)) = false := by
  refine isFinishedLine_info_false _ 'R' ?_ (by decide)
  rw [String.data_append, String.data_append]
  rfl

theorem isFinishedLine_emitting (x : String) :
    isFinishedLine (.info ("Emitting " ++ x)) = false := by
  refine isFinishedLine_info_false _ 'E' ?_ (by decide)
  rw [String.data_append]
  rfl

/-! ## The claims -/

/-- C1: `all_metric_data_for_response` flattens in deterministic document
order — nodes in `nodes` order, then for each node the `node` holder's
metrics before the `services` metrics, services in list order, metric
entries in `metrics` order, and points in `values` insertion order — and
on the two-node fixture document it returns exactly the 8 fixture metric
points in document order, with names, values, dimension contents and
dimension order preserved exactly. -/
theorem flatten_order_and_fixture :
    (∀ (doc : MetricsDocument) (nodes : List NodeEntry), doc.nodes = some nodes →
      all_metric_data_for_response doc =
        .ok (nodes.flatMap fun ne =>
          metric_data_for_node_node ne ++ metric_data_for_node_services ne)) ∧
    (∀ ne : NodeEntry, metric_data_for_node_services ne =
      (ne.services.getD []).flatMap metric_data_for_service_or_node) ∧
    (∀ h : MetricsHolder, metric_data_for_service_or_node h =
      (h.metrics.getD []).flatMap get_metrics_with_dimensions) ∧
    (∀ e : MetricsEntry, get_metrics_with_dimensions e =
      (e.values.getD []).map fun nv => ⟨nv.1, nv.2, "None", get_dimensions e⟩) ∧
    all_metric_data_for_response fixtureDoc = .ok fixturePoints ∧
    fixturePoints.length = 8 := by
  refine ⟨?_, ?_, ?_, ?_, rfl, rfl⟩
  · intro doc nodes h
    unfold all_metric_data_for_response
    rw [h]
  · rintro ⟨hn, nd, sv⟩
    cases sv <;> simp [metric_data_for_node_services]
  · rintro ⟨ms⟩
    cases ms <;> simp [metric_data_for_service_or_node]
  · rintro ⟨vs, ds⟩
    cases vs <;> simp [get_metrics_with_dimensions]

theorem flatten_order_and_fixture_witness :
    all_metric_data_for_response fixtureDoc =
      .ok ((fixtureDoc.nodes.getD []).flatMap fun ne =>
        metric_data_for_node_node ne ++ metric_data_for_node_services ne) :=
  flatten_order_and_fixture.1 fixtureDoc (fixtureDoc.nodes.getD []) rfl

/-- C2: for every sequence `S` and every integer `n ≥ 1`, `split_list`
returns chunks whose concatenation reproduces `S` in order, every chunk
except possibly the last has length exactly `n`, for non-empty `S` the
last chunk has length in `[1, n]`, and `split_list [] n` is the empty
sequence of chunks. -/
theorem split_list_chunk_spec {α : Type} (S : List α) (n : Int) (hn : 1 ≤ n) :
    ∃ cs, split_list S n = .ok cs ∧
      cs.flatten = S ∧
      (∀ c ∈ cs.dropLast, c.length = n.toNat) ∧
      (S ≠ [] → ∃ hne : cs ≠ [],
        1 ≤ (cs.getLast hne).length ∧ (cs.getLast hne).length ≤ n.toNat) ∧
      split_list ([] : List α) n = .ok [] := by
  have hm : 1 ≤ n.toNat := by omega
  have hcast : ((n.toNat : Nat) : Int) = n := Int.toNat_of_nonneg (by omega)
  refine ⟨chunksRec n.toNat S, ?_, chunksRec_flatten n.toNat hm S,
    chunksRec_dropLast_length n.toNat hm S, ?_, ?_⟩
  · rw [← hcast]
    exact split_list_eq_chunksRec S n.toNat hm
  · intro hS
    have hne : chunksRec n.toNat S ≠ [] := fun h =>
      hS ((chunksRec_eq_nil_iff n.toNat S).mp h)
    refine ⟨hne, ?_, (chunksRec_mem_bounds n.toNat hm S _ (List.getLast_mem hne)).2⟩
    have hb := (chunksRec_mem_bounds n.toNat hm S _ (List.getLast_mem hne)).1
    have := List.length_pos.mpr hb
    omega
  · rw [← hcast, split_list_eq_chunksRec ([] : List α) n.toNat hm]
    simp [chunksRec]

theorem split_list_chunk_spec_witness :
    (1 : Int) ≤ 3 ∧
    ∃ cs, split_list ([1, 2, 3, 4, 5, 6, 7, 8, 9, 10] : List Nat) (3 : Int) = .ok cs ∧
      cs.flatten = [1, 2, 3, 4, 5, 6, 7, 8, 9, 10] := by
  refine ⟨by decide, ?_⟩
  obtain ⟨cs, h1, h2, -, -, -⟩ := split_list_chunk_spec
    ([1, 2, 3, 4, 5, 6, 7, 8, 9, 10] : List Nat) 3 (by decide)
  exact ⟨cs, h1, h2⟩

/-- C3: for every document whose `nodes` field is present, the flattener
never raises: a point is produced only for entries with a present and
non-empty `values` mapping; absent `node`, `services`, `metrics` or
`values` parts contribute zero points while the rest still produces its
points (in particular a node with `node` metrics but no `services` still
emits the `node` metrics); absent `dimensions` yields an empty dimension
list, never an error. -/
theorem flatten_partial_data :
    (∀ (doc : MetricsDocument) (nodes : List NodeEntry), doc.nodes = some nodes →
      ∃ pts, all_metric_data_for_response doc = .ok pts) ∧
    (∀ e : MetricsEntry, e.values = none ∨ e.values = some [] →
      get_metrics_with_dimensions e = []) ∧
    (∀ (e : MetricsEntry) (vs : List (String × ℚ)), e.values = some vs →
      (get_metrics_with_dimensions e).length = vs.length) ∧
    (∀ (hn : Option String) (sv : Option (List MetricsHolder)),
      metric_data_for_node_node ⟨hn, none, sv⟩ = []) ∧
    (∀ (hn : Option String) (nd : Option MetricsHolder),
      metric_data_for_node_services ⟨hn, nd, none⟩ = []) ∧
    metric_data_for_service_or_node ⟨none⟩ = [] ∧
    (∀ (hn : Option String) (holder : MetricsHolder),
      metric_data_for_node_node ⟨hn, some holder, none⟩ ++
        metric_data_for_node_services ⟨hn, some holder, none⟩ =
        metric_data_for_service_or_node holder) ∧
    (∀ e : MetricsEntry, e.dimensions = none → get_dimensions e = []) ∧
    (∀ (e : MetricsEntry) (p : MetricPoint),
      p ∈ get_metrics_with_dimensions e → p.Dimensions = get_dimensions e) := by
  refine ⟨?_, ?_, ?_, fun _ _ => rfl, fun _ _ => rfl, rfl, ?_, ?_, ?_⟩
  · intro doc nodes h
    exact ⟨_, by unfold all_metric_data_for_response; rw [h]⟩
  · rintro ⟨vs, ds⟩ (h | h) <;> simp only at h <;> subst h <;>
      simp [get_metrics_with_dimensions]
  · rintro ⟨vs', ds⟩ vs h
    simp only at h
    subst h
    simp [get_metrics_with_dimensions]
  · intro hn holder
    simp [metric_data_for_node_node, metric_data_for_node_services]
  · rintro ⟨vs, ds⟩ h
    simp only at h
    subst h
    simp [get_dimensions]
  · rintro ⟨vs, ds⟩ p hp
    cases vs with
    | none => simp [get_metrics_with_dimensions] at hp
    | some vs' =>
      simp [get_metrics_with_dimensions] at hp
      obtain ⟨a, b, hab, rfl⟩ := hp
      rfl

theorem flatten_partial_data_witness :
    (∃ pts, all_metric_data_for_response fixtureDoc = .ok pts) ∧
    get_metrics_with_dimensions ⟨none, some [("host", "h")]⟩ = [] ∧
    get_dimensions ⟨some [("cpu.util", 1)], none⟩ = [] :=
  ⟨flatten_partial_data.1 fixtureDoc (fixtureDoc.nodes.getD []) rfl,
   flatten_partial_data.2.1 ⟨none, some [("host", "h")]⟩ (.inl rfl),
   flatten_partial_data.2.2.2.2.2.2.2.1 ⟨some [("cpu.util", 1)], none⟩ rfl⟩

/-- C4: `run` never propagates an exception: a fetch failure of any of the
three exception kinds produces a normal return whose log ends with the
matching warning, and an exception raised by a later stage (the emission
loop) likewise produces a normal return whose log ends with a warning. -/
theorem run_never_raises :
    (∀ (cfg : EmitterConfig) (put : Nat → Except PyExc String) (s₀ : Nat) (e : PyExc),
      run cfg (.error e) put s₀ =
        ⟨0, [], [.info ("Retrieving Vespa metrics from " ++ cfg.vespa_endpoint ++
          "metrics/v2/values"), .warning (excHandlerText e)]⟩) ∧
    (∀ (cfg : EmitterConfig) (doc : MetricsDocument) (nodes : List NodeEntry)
        (put : Nat → Except PyExc String) (s₀ : Nat) (pts : List MetricPoint) (e : PyExc),
      doc.nodes = some nodes →
      all_metric_data_for_response doc = .ok pts →
      (emit_metric_data cfg put pts).exc = some e →
      (run cfg (.ok doc) put s₀).logs.getLast? = some (.warning (excHandlerText e))) := by
  refine ⟨run_fetch_error, ?_⟩
  intro cfg doc nodes put s₀ pts e h1 h2 h3
  rw [run_emit_exc cfg doc nodes put s₀ pts e h1 h2 h3]
  show (LogLine.info ("Retrieving Vespa metrics from " ++ cfg.vespa_endpoint ++
      "metrics/v2/values") :: LogLine.debugJson doc ::
      ((emit_metric_data cfg put pts).logs ++
        [LogLine.warning (excHandlerText e)])).getLast? = _
  rw [show LogLine.info ("Retrieving Vespa metrics from " ++ cfg.vespa_endpoint ++
      "metrics/v2/values") :: LogLine.debugJson doc ::
      ((emit_metric_data cfg put pts).logs ++ [LogLine.warning (excHandlerText e)]) =
      (LogLine.info ("Retrieving Vespa metrics from " ++ cfg.vespa_endpoint ++
        "metrics/v2/values") :: LogLine.debugJson doc ::
        (emit_metric_data cfg put pts).logs) ++ [LogLine.warning (excHandlerText e)]
      by simp]
  exact List.getLast?_concat _

theorem run_never_raises_witness :
    (run cfgEx (.ok fixtureDoc) (putFailAt 0) 0).logs.getLast? =
      some (.warning (excHandlerText (.other "AccessDenied"))) :=
  run_never_raises.2 cfgEx fixtureDoc (fixtureDoc.nodes.getD []) (putFailAt 0) 0
    fixturePoints (.other "AccessDenied") rfl rfl rfl

/-- C5: the batch counter is reset to zero at the start of every run (the
leftover value of `chunks_sent` is irrelevant), the count at end of a
fully successful run equals the number of `put_metric_data` invocations
made, and on the 8-point fixture with maximum batch size 3 the count is 3
with batch sizes 3, 3, 2. -/
theorem run_batch_counter :
    (∀ (cfg : EmitterConfig) (fetch : Except PyExc MetricsDocument)
        (put : Nat → Except PyExc String) (s₀ s₁ : Nat),
      run cfg fetch put s₀ = run cfg fetch put s₁) ∧
    (∀ (cfg : EmitterConfig) (fetch : Except PyExc MetricsDocument)
        (put : Nat → Except PyExc String) (s₀ : Nat),
      (∀ i, ∃ r, put i = .ok r) →
      (run cfg fetch put s₀).chunks_sent = (run cfg fetch put s₀).attempted.length) ∧
    (run cfgEx (.ok fixtureDoc) putOk 0).chunks_sent = 3 ∧
    (run cfgEx (.ok fixtureDoc) putOk 0).attempted.map List.length = [3, 3, 2] := by
  refine ⟨fun _ _ _ _ _ => rfl, ?_, rfl, rfl⟩
  intro cfg fetch put s₀ hok
  rcases fetch with e | doc
  · rw [run_fetch_error]
    rfl
  · rcases hnd : doc.nodes with _ | nodes
    · rw [run_no_nodes cfg doc put s₀ hnd]
      rfl
    · obtain ⟨pts, hflat⟩ : ∃ pts, all_metric_data_for_response doc = .ok pts :=
        ⟨_, by unfold all_metric_data_for_response; rw [hnd]⟩
      rcases hsplit : split_list pts cfg.chunk_size with msg | chunks
      · have hemit : emit_metric_data cfg put pts =
            ⟨0, [], [.info ("Emitting " ++ toString pts.length ++
              " metrics in chunks of max " ++ toString cfg.chunk_size)],
              some (.other msg)⟩ := by
          unfold emit_metric_data
          rw [hsplit]
        have hexc : (emit_metric_data cfg put pts).exc = some (.other msg) := by
          rw [hemit]
        rw [run_emit_exc cfg doc nodes put s₀ pts _ hnd hflat hexc, hemit]
        rfl
      · have hech := emitChunks_all_ok put hok chunks 0
        have hemit := emit_metric_data_split_ok cfg put pts chunks hsplit
        have hexc : (emit_metric_data cfg put pts).exc = none := by
          rw [hemit]
          exact hech.2.2
        rw [run_emit_none cfg doc nodes put s₀ pts hnd hflat hexc, hemit]
        show (emitChunks put chunks 0).chunks_sent =
          (emitChunks put chunks 0).attempted.length
        rw [hech.1, hech.2.1]
        simp

theorem run_batch_counter_witness :
    (run cfgEx (.ok fixtureDoc) putOk 0).chunks_sent =
      (run cfgEx (.ok fixtureDoc) putOk 0).attempted.length :=
  run_batch_counter.2.1 cfgEx (.ok fixtureDoc) putOk 0
    (fun i => ⟨"ack" ++ toString i, rfl⟩)

/-- C6 counterexample: when the fetched document lacks `nodes`, `run`
returns after the warning without ever logging a terminal summary line
`"Finished emitting N metrics chunks"` — the claim that the summary is
logged in that case is false. -/
theorem run_absent_nodes_counterexample :
    (run cfgEx (.ok ⟨none⟩) putOk 0).logs =
      [.info ("Retrieving Vespa metrics from " ++ "https://vespa.example/" ++
        "metrics/v2/values"), .debugJson ⟨none⟩,
       .warning "No 'nodes' in metrics json"] ∧
    (run cfgEx (.ok ⟨none⟩) putOk 0).logs.any isFinishedLine = false :=
  ⟨rfl, rfl⟩

/-- C6 amended: on every normal completion with `nodes` present the run
ends by logging the terminal summary line with the batch count; when the
document lacks `nodes`, `run` logs the warning and returns early, without
the summary line. -/
theorem run_summary_line_amended :
    (∀ (cfg : EmitterConfig) (doc : MetricsDocument) (nodes : List NodeEntry)
        (put : Nat → Except PyExc String) (s₀ : Nat) (pts : List MetricPoint),
      doc.nodes = some nodes →
      all_metric_data_for_response doc = .ok pts →
      (emit_metric_data cfg put pts).exc = none →
      (run cfg (.ok doc) put s₀).logs.getLast? =
        some (finishedLine (emit_metric_data cfg put pts).chunks_sent)) ∧
    (∀ (doc : MetricsDocument) (put : Nat → Except PyExc String) (s₀ : Nat),
      doc.nodes = none →
      (run cfgEx (.ok doc) put s₀).logs.any isFinishedLine = false) ∧
    (∀ (cfg : EmitterConfig) (doc : MetricsDocument)
        (put : Nat → Except PyExc String) (s₀ : Nat),
      doc.nodes = none →
      (run cfg (.ok doc) put s₀).logs.getLast? =
        some (.warning "No 'nodes' in metrics json")) := by
  refine ⟨?_, ?_, ?_⟩
  · intro cfg doc nodes put s₀ pts h1 h2 h3
    rw [run_emit_none cfg doc nodes put s₀ pts h1 h2 h3]
    show (LogLine.info ("Retrieving Vespa metrics from " ++ cfg.vespa_endpoint ++
        "metrics/v2/values") :: LogLine.debugJson doc ::
        ((emit_metric_data cfg put pts).logs ++
          [finishedLine (emit_metric_data cfg put pts).chunks_sent])).getLast? = _
    rw [show LogLine.info ("Retrieving Vespa metrics from " ++ cfg.vespa_endpoint ++
        "metrics/v2/values") :: LogLine.debugJson doc ::
        ((emit_metric_data cfg put pts).logs ++
          [finishedLine (emit_metric_data cfg put pts).chunks_sent]) =
        (LogLine.info ("Retrieving Vespa metrics from " ++ cfg.vespa_endpoint ++
          "metrics/v2/values") :: LogLine.debugJson doc ::
          (emit_metric_data cfg put pts).logs) ++
          [finishedLine (emit_metric_data cfg put pts).chunks_sent]
        by simp]
    exact List.getLast?_concat _
  · intro doc put s₀ h
    rw [run_no_nodes cfgEx doc put s₀ h]
    rfl
  · intro cfg doc put s₀ h
    rw [run_no_nodes cfg doc put s₀ h]
    rfl

theorem run_summary_line_amended_witness :
    (run cfgEx (.ok fixtureDoc) putOk 0).logs.getLast? =
      some (finishedLine (emit_metric_data cfgEx putOk fixturePoints).chunks_sent) ∧
    (run cfgEx (.ok (⟨none⟩ : MetricsDocument)) putOk 0).logs.any isFinishedLine = false :=
  ⟨run_summary_line_amended.1 cfgEx fixtureDoc (fixtureDoc.nodes.getD []) putOk 0
      fixturePoints rfl rfl rfl,
   run_summary_line_amended.2.1 ⟨none⟩ putOk 0 rfl⟩

/-- C7 counterexample: on a document with `nodes` absent, the flattener
does not return the empty sequence — the subscript `response_json['nodes']`
raises `KeyError`. -/
theorem flatten_absent_nodes_counterexample :
    all_metric_data_for_response ⟨none⟩ = .error (.other "KeyError: nodes") ∧
    all_metric_data_for_response ⟨none⟩ ≠ .ok [] :=
  ⟨rfl, by decide⟩

/-- C7 amended: for a document whose `nodes` list is present but empty the
flattener returns the empty sequence; for a document with `nodes` absent
the flattener raises `KeyError` (run guards and never calls it there); in
both cases `run` makes zero `put_metric_data` invocations. -/
theorem flatten_empty_amended :
    (∀ doc : MetricsDocument, doc.nodes = some [] →
      all_metric_data_for_response doc = .ok []) ∧
    (∀ doc : MetricsDocument, doc.nodes = none →
      all_metric_data_for_response doc = .error (.other "KeyError: nodes")) ∧
    (∀ (cfg : EmitterConfig) (put : Nat → Except PyExc String) (s₀ : Nat)
        (doc : MetricsDocument), doc.nodes = some [] ∨ doc.nodes = none →
      (run cfg (.ok doc) put s₀).attempted = [] ∧
      (run cfg (.ok doc) put s₀).chunks_sent = 0) := by
  have hflat : ∀ doc : MetricsDocument, doc.nodes = some [] →
      all_metric_data_for_response doc = .ok [] := by
    intro doc h
    unfold all_metric_data_for_response
    rw [h]
    rfl
  refine ⟨hflat, ?_, ?_⟩
  · intro doc h
    unfold all_metric_data_for_response
    rw [h]
  · intro cfg put s₀ doc h
    rcases h with h | h
    · have h2 := hflat doc h
      rcases hsplit : split_list ([] : List MetricPoint) cfg.chunk_size with msg | chunks
      · have hemit : emit_metric_data cfg put [] =
            ⟨0, [], [.info ("Emitting " ++ toString (List.length ([] : List MetricPoint)) ++
              " metrics in chunks of max " ++ toString cfg.chunk_size)],
              some (.other msg)⟩ := by
          unfold emit_metric_data
          rw [hsplit]
        have hexc : (emit_metric_data cfg put []).exc = some (.other msg) := by
          rw [hemit]
        rw [run_emit_exc cfg doc [] put s₀ [] _ h h2 hexc, hemit]
        exact ⟨rfl, rfl⟩
      · have hnil := split_list_nil (α := MetricPoint) cfg.chunk_size
        rw [hsplit] at hnil
        by_cases hc : cfg.chunk_size = 0
        · rw [if_pos hc] at hnil
          exact absurd hnil (by simp)
        · rw [if_neg hc] at hnil
          have hchunks : chunks = [] := by
            simpa using hnil
          subst hchunks
          have hemit := emit_metric_data_split_ok cfg put [] [] hsplit
          have hexc : (emit_metric_data cfg put []).exc = none := by
            rw [hemit]
            rfl
          rw [run_emit_none cfg doc [] put s₀ [] h h2 hexc, hemit]
          exact ⟨rfl, rfl⟩
    · rw [run_no_nodes cfg doc put s₀ h]
      exact ⟨rfl, rfl⟩

theorem flatten_empty_amended_witness :
    all_metric_data_for_response ⟨some []⟩ = .ok [] ∧
    (run cfgEx (.ok ⟨some []⟩) putOk 0).attempted = [] :=
  ⟨flatten_empty_amended.1 ⟨some []⟩ rfl,
   (flatten_empty_amended.2.2 cfgEx putOk 0 ⟨some []⟩ (.inl rfl)).1⟩

/-- C8: if `put_metric_data` raises on the `k`-th batch (1-indexed), the
first `k - 1` batches were already published, exactly the first `k`
batches were attempted (none after the `k`-th), the counter holds
`k - 1`, and `run` logs a warning and returns normally without logging
the `"Finished emitting"` summary line. -/
theorem run_put_failure_prefix (cfg : EmitterConfig) (doc : MetricsDocument)
    (nodes : List NodeEntry) (put : Nat → Except PyExc String) (s₀ : Nat)
    (pts : List MetricPoint) (chunks : List (List MetricPoint)) (k : Nat) (e : PyExc)
    (hnodes : doc.nodes = some nodes)
    (hflat : all_metric_data_for_response doc = .ok pts)
    (hsplit : split_list pts cfg.chunk_size = .ok chunks)
    (hk1 : 1 ≤ k) (hk2 : k ≤ chunks.length)
    (hok : ∀ i, i < k - 1 → ∃ r, put i = .ok r)
    (hfail : put (k - 1) = .error e) :
    (run cfg (.ok doc) put s₀).chunks_sent = k - 1 ∧
    (run cfg (.ok doc) put s₀).attempted = chunks.take k ∧
    (run cfg (.ok doc) put s₀).logs.getLast? = some (.warning (excHandlerText e)) ∧
    (run cfg (.ok doc) put s₀).logs.any isFinishedLine = false := by
  have hok' : ∀ i, i < k - 1 → ∃ r, put (0 + i) = .ok r := by
    intro i hi
    simpa using hok i hi
  have hfail' : put (0 + (k - 1)) = .error e := by simpa using hfail
  have hech := emitChunks_fail put e chunks 0 (k - 1) (by omega) hok' hfail'
  have hemit := emit_metric_data_split_ok cfg put pts chunks hsplit
  have hexc : (emit_metric_data cfg put pts).exc = some e := by
    rw [hemit]
    exact hech.2.2
  rw [run_emit_exc cfg doc nodes put s₀ pts e hnodes hflat hexc, hemit]
  refine ⟨?_, ?_, ?_, ?_⟩
  · show (emitChunks put chunks 0).chunks_sent = k - 1
    rw [hech.1]
    omega
  · show (emitChunks put chunks 0).attempted = chunks.take k
    rw [hech.2.1]
    congr 1
    omega
  · show (LogLine.info ("Retrieving Vespa metrics from " ++ cfg.vespa_endpoint ++
        "metrics/v2/values") :: LogLine.debugJson doc ::
        ((.info ("Emitting " ++ toString pts.length ++ " metrics in chunks of max " ++
          toString cfg.chunk_size) :: (emitChunks put chunks 0).logs) ++
          [LogLine.warning (excHandlerText e)])).getLast? = _
    rw [show LogLine.info ("Retrieving Vespa metrics from " ++ cfg.vespa_endpoint ++
        "metrics/v2/values") :: LogLine.debugJson doc ::
        ((.info ("Emitting " ++ toString pts.length ++ " metrics in chunks of max " ++
          toString cfg.chunk_size) :: (emitChunks put chunks 0).logs) ++
          [LogLine.warning (excHandlerText e)]) =
        (LogLine.info ("Retrieving Vespa metrics from " ++ cfg.vespa_endpoint ++
          "metrics/v2/values") :: LogLine.debugJson doc ::
          .info ("Emitting " ++ toString pts.length ++ " metrics in chunks of max " ++
            toString cfg.chunk_size) :: (emitChunks put chunks 0).logs) ++
          [LogLine.warning (excHandlerText e)]
        by simp]
    exact List.getLast?_concat _
  · rw [List.any_eq_false]
    intro x hx
    simp only [List.mem_cons, List.mem_append, List.mem_singleton] at hx
    rcases hx with rfl | rfl | hx | rfl | h0
    · simp [isFinishedLine_retrieving]
    · simp [isFinishedLine]
    · rcases hx with rfl | hx2
      · simp only [String.append_assoc]
        simp [isFinishedLine_emitting]
      · rcases emitChunks_logs_shape put chunks 0 x hx2 with ⟨s, rfl⟩ | ⟨r, rfl⟩
        · simp [isFinishedLine_emitting]
        · simp [isFinishedLine]
    · simp [isFinishedLine]
    · simp at h0

theorem run_put_failure_prefix_witness :
    (run cfgEx (.ok fixtureDoc) (putFailAt 1) 0).chunks_sent = 1 ∧
    (run cfgEx (.ok fixtureDoc) (putFailAt 1) 0).attempted =
      [fixturePoints.take 3, (fixturePoints.drop 3).take 3, fixturePoints.drop 6].take 2 ∧
    (run cfgEx (.ok fixtureDoc) (putFailAt 1) 0).logs.any isFinishedLine = false := by
  have h := run_put_failure_prefix cfgEx fixtureDoc (fixtureDoc.nodes.getD [])
    (putFailAt 1) 0 fixturePoints
    [fixturePoints.take 3, (fixturePoints.drop 3).take 3, fixturePoints.drop 6]
    2 (.other "AccessDenied") rfl rfl rfl (by omega) (by simp)
    (fun i hi => ⟨"ack" ++ toString i, by
      have : i = 0 := by omega
      subst this
      rfl⟩)
    rfl
  exact ⟨h.1, h.2.1, h.2.2.2⟩

/-- C9: outside the documented precondition, `split_list` with chunk size 0
raises (`range` rejects a zero step) for every list; with a negative chunk
size it returns the empty sequence of chunks, silently discarding all
elements; under the precondition `chunk_size ≥ 1` it is total and never
raises. -/
theorem split_list_outside_precondition :
    (∀ (α : Type) (lst : List α),
      split_list lst 0 = .error "range() arg 3 must not be zero") ∧
    (∀ (α : Type) (lst : List α) (c : Int), c < 0 → split_list lst c = .ok []) ∧
    (∀ (α : Type) (lst : List α) (n : Int), 1 ≤ n → ∃ cs, split_list lst n = .ok cs) := by
  refine ⟨?_, ?_, ?_⟩
  · intro α lst
    rfl
  · intro α lst c hc
    exact split_list_neg lst c hc
  · intro α lst n hn
    have hcast : ((n.toNat : Nat) : Int) = n := Int.toNat_of_nonneg (by omega)
    refine ⟨chunksRec n.toNat lst, ?_⟩
    rw [← hcast]
    exact split_list_eq_chunksRec lst n.toNat (by omega)

theorem split_list_outside_precondition_witness :
    split_list ([1, 2, 3] : List Nat) 0 = .error "range() arg 3 must not be zero" ∧
    ((-2 : Int) < 0 ∧ split_list ([1, 2, 3] : List Nat) (-2) = .ok []) ∧
    ((1 : Int) ≤ 2 ∧ ∃ cs, split_list ([1, 2, 3] : List Nat) 2 = .ok cs) :=
  ⟨split_list_outside_precondition.1 Nat [1, 2, 3],
   ⟨by decide, split_list_outside_precondition.2.1 Nat [1, 2, 3] (-2) (by decide)⟩,
   ⟨by decide, split_list_outside_precondition.2.2 Nat [1, 2, 3] 2 (by decide)⟩⟩

/-- C10: the chunks returned by `split_list` are contiguous sublists of the
input — each chunk extends by a prefix and a suffix back to the exact
input list — and for `chunk_size ≥ 1` their concatenation reconstructs the
input unchanged; both `split_list` and the flattener are pure functions of
their arguments in this embedding, so neither modifies its input. -/
theorem split_list_fresh_sublists :
    (∀ (α : Type) (S : List α) (c : Int) (cs : List (List α)),
      split_list S c = .ok cs → ∀ b ∈ cs, ∃ pre post, pre ++ b ++ post = S) ∧
    (∀ (α : Type) (S : List α) (n : Int), 1 ≤ n →
      ∃ cs, split_list S n = .ok cs ∧ cs.flatten = S) := by
  constructor
  · intro α S c cs h b hb
    unfold split_list at h
    rcases hr : pyRange 0 S.length c with msg | idxs
    · rw [hr] at h
      exact absurd h (by simp [Except.map])
    · rw [hr] at h
      simp only [Except.map] at h
      have hcs : cs = idxs.map fun i => pySlice S i (i + c) := by
        have := h
        simp at this
        exact this.symm
      subst hcs
      obtain ⟨i, hi, hslice⟩ := List.mem_map.mp hb
      rw [← hslice]
      exact pySlice_decomp S i (i + c)
  · intro α S n hn
    have hcast : ((n.toNat : Nat) : Int) = n := Int.toNat_of_nonneg (by omega)
    refine ⟨chunksRec n.toNat S, ?_, chunksRec_flatten n.toNat (by omega) S⟩
    rw [← hcast]
    exact split_list_eq_chunksRec S n.toNat (by omega)

theorem split_list_fresh_sublists_witness :
    ∃ pre post, pre ++ [4, 5, 6] ++ post = [1, 2, 3, 4, 5, 6, 7, 8, 9, 10] :=
  split_list_fresh_sublists.1 Nat [1, 2, 3, 4, 5, 6, 7, 8, 9, 10] 3
    [[1, 2, 3], [4, 5, 6], [7, 8, 9], [10]] rfl [4, 5, 6] (by decide)

end Vespa
